import Mathlib

/-!
Verification of the MQTT-to-web telemetry bridge (`src/server.js`).

The development shallow-embeds the parts of the server the specification
talks about:

* the signed-cookie token codec (`signToken` / `verifyToken`),
* the device-state store (`latestByDevice`, a JS `Map` modelled as an
  insertion-ordered association list),
* the topic router (`getDeviceFromTopic` and the `mqttClient.on("message")`
  handler, modelled as the pure state transition `processMessage`),
* the SSE stream hub (`app.get("/api/stream/:device")` modelled as
  `subscribeStream`, the close handler as `onClose`),
* the two device listings (`apiDevices` for `GET /api/devices`,
  `apiStateDevices` for the device list inside `GET /api/state`).

JS strings are modelled as `List Char` (`Str`); `String.prototype.split`
with a one-character separator is `splitOnChar`, which agrees with the JS
semantics (`"".split("/") = [""]`, empty segments kept).  External library
primitives that the server calls — `crypto.createHmac(...).digest`,
`JSON.stringify`/`JSON.parse` composed with base64url coding — are taken as
parameters (`TokenCodecEnv`, `parseJson`), since their code is not part of
the repository; every property proved holds for all instantiations of
those parameters that satisfy the stated (and true of the real primitives)
hypotheses, and concrete executable instantiations are provided for
witnesses.
-/

/-- JS strings, modelled as lists of characters. -/
abbrev Str := List Char

/-- JS `String.prototype.split` with a single-character separator.
Agrees with JS: `[] ↦ [[]]`, empty segments are kept. -/
def splitOnChar (c : Char) : Str → List Str
  | [] => [[]]
  | x :: xs =>
    match splitOnChar c xs with
    | [] => [[]]
    | s :: rest => if x = c then [] :: s :: rest else (x :: s) :: rest

/-- Byte length of the UTF-8 encoding of a string; models
`Buffer.from(s).length` for a JS string `s`. -/
def utf8Len (s : Str) : Nat := (s.map Char.utf8Size).sum

theorem splitOnChar_of_not_mem {c : Char} : ∀ {l : Str}, c ∉ l → splitOnChar c l = [l]
  | [], _ => rfl
  | x :: xs, h => by
    have hx : x ≠ c := fun hxc => h (hxc ▸ List.mem_cons_self x xs)
    have hxs : c ∉ xs := fun hm => h (List.mem_cons_of_mem x hm)
    simp [splitOnChar, splitOnChar_of_not_mem hxs, hx]

theorem splitOnChar_append_sep {c : Char} :
    ∀ {a b : Str}, c ∉ a → c ∉ b → splitOnChar c (a ++ c :: b) = [a, b] := by
  intro a
  induction a with
  | nil =>
    intro b _ hb
    simp [splitOnChar, splitOnChar_of_not_mem hb]
  | cons x xs ih =>
    intro b ha hb
    have hx : x ≠ c := fun hxc => ha (hxc ▸ List.mem_cons_self x xs)
    have hxs : c ∉ xs := fun hm => ha (List.mem_cons_of_mem x hm)
    simp [splitOnChar, ih hxs hb, hx]

/-!
## Token codec (`signToken` / `verifyToken`, src/server.js lines 45-75)

A decoded token payload object.  The JS `JSON.parse` result is an arbitrary
value; the codec only ever reads its `u` and `exp` fields, so the model
keeps exactly those, each optional (absent field ↦ `none`).  The JS
falsiness test `!obj.exp` holds for an absent field and for `exp = 0`.
-/

/-- A decoded token payload object: the `u` and `exp` fields that
`verifyToken` reads, each possibly absent. -/
structure TokenObj where
  u : Option Str
  exp : Option Nat
deriving DecidableEq

/-- The external primitives the token codec calls:
`mac` is `crypto.createHmac("sha256", AUTH_SECRET).update(·).digest("base64url")`;
`enc` is `b64url(JSON.stringify ·)` (line 50);
`dec` is `JSON.parse(Buffer.from(·, "base64url").toString("utf8"))`
restricted to the fields read, `none` when `JSON.parse` throws (lines 68-74). -/
structure TokenCodecEnv where
  mac : Str → Str
  enc : TokenObj → Str
  dec : Str → Option TokenObj

/-- `signToken` (lines 49-53): `payload ++ "." ++ HMAC(payload)`. -/
def signToken (E : TokenCodecEnv) (payloadObj : TokenObj) : Str :=
  let payload := E.enc payloadObj
  payload ++ '.' :: E.mac payload

/-- `verifyToken` (lines 55-75).  `none` models the JS `null` return.
The argument is `Option Str`: `none` models a missing token (the JS
`!token` guard also rejects the empty string, kept as the `t = []` test).
The buffer-length comparison (line 65) and `crypto.timingSafeEqual`
(line 66) are the two separate rejection tests of the source. -/
def verifyToken (E : TokenCodecEnv) (token : Option Str) (now : Nat) : Option TokenObj :=
  match token with
  | none => none
  | some t =>
    if t = [] then none
    else
      match splitOnChar '.' t with
      | [payload, sig] =>
        let expected := E.mac payload
        if utf8Len sig ≠ utf8Len expected then none
        else if sig ≠ expected then none
        else
          match E.dec payload with
          | none => none
          | some obj =>
            match obj.exp with
            | none => none
            | some e => if e = 0 then none else if now > e then none else some obj
      | _ => none

/-!
Concrete executable instantiation of the codec environment, used to
evaluate the codec on closed inputs.  `witMac` is injective and
equal-length-preserving on the payloads used; `witDec` inverts `witEnc`
on them.
-/

/-- Parse a nonempty list of decimal digits; `none` otherwise. -/
def digitsToNat : Str → Option Nat
  | [] => none
  | l =>
    l.foldl
      (fun acc c =>
        match acc with
        | none => none
        | some n => if c.isDigit then some (n * 10 + (c.toNat - 48)) else none)
      (some 0)

/-- Concrete stand-in for the HMAC primitive: prepend a marker character. -/
def witMac (s : Str) : Str := 'm' :: s

/-- Concrete stand-in for `b64url ∘ JSON.stringify` on payload objects. -/
def witEnc (obj : TokenObj) : Str :=
  obj.u.getD [] ++ '|' :: Nat.toDigits 10 (obj.exp.getD 0)

/-- Concrete stand-in decoder inverting `witEnc` on well-formed payloads. -/
def witDec (s : Str) : Option TokenObj :=
  match splitOnChar '|' s with
  | [n, es] =>
    match digitsToNat es with
    | some e => some ⟨some n, some e⟩
    | none => none
  | _ => none

/-- The concrete codec environment for closed evaluations. -/
def witEnv : TokenCodecEnv := ⟨witMac, witEnc, witDec⟩

example : signToken witEnv ⟨some "admin".toList, some 5⟩ = "admin|5.madmin|5".toList := by
  decide

example :
    verifyToken witEnv (some "admin|5.madmin|5".toList) 4 =
      some ⟨some "admin".toList, some 5⟩ := by decide

example : verifyToken witEnv (some "admin|5.madmin|5".toList) 6 = none := by decide

example : verifyToken witEnv (some "admin|5.xadmin|5".toList) 4 = none := by decide

/-!
## Claim C1 — conditions under which `verifyToken` succeeds

The source rejects an expired token with `Date.now() > obj.exp` (line 70),
i.e. it *accepts* at `now = exp`.  The claim's "now >= expiresAt fails" is
therefore wrong at the boundary; the inversion theorem below establishes
the corrected condition `now ≤ exp`.
-/

/-- C1 (corrected): a successful `verifyToken` implies the token splits
into exactly a payload and a code segment, the code equals the recomputed
HMAC of the payload (matching both in byte length and by value), the
payload decodes to the returned object, and the object carries a nonzero
expiry with `now ≤ exp`.  (Never a crash: `verifyToken` is total and
returns the invalid outcome `none` in every failure case.) -/
theorem c1_verify_success_inversion (E : TokenCodecEnv) (t : Str) (now : Nat)
    (obj : TokenObj) (h : verifyToken E (some t) now = some obj) :
    ∃ payload sig e,
      splitOnChar '.' t = [payload, sig] ∧
      utf8Len sig = utf8Len (E.mac payload) ∧
      sig = E.mac payload ∧
      E.dec payload = some obj ∧
      obj.exp = some e ∧ e ≠ 0 ∧ now ≤ e := by
  simp only [verifyToken] at h
  split at h
  · simp at h
  split at h
  case _ payload sig heq =>
    split at h
    · simp at h
    case _ hlen =>
      split at h
      · simp at h
      case _ hsig =>
        split at h
        · simp at h
        case _ obj0 hdec =>
          split at h
          · simp at h
          case _ e hexp =>
            split at h
            · simp at h
            case _ he0 =>
              split at h
              · simp at h
              case _ hnow =>
                obtain rfl : obj0 = obj := by simpa using h
                exact ⟨payload, sig, e, heq, not_not.mp hlen, not_not.mp hsig,
                  hdec, hexp, he0, Nat.le_of_not_lt hnow⟩
  case _ => simp at h

/-- C1 counterexample: at `now = exp` (here both `5`) the claim says
`verify` fails (`now >= expiresAt`), but the source's `Date.now() > obj.exp`
test accepts: verification succeeds at the expiry instant. -/
theorem c1_counterexample :
    (5 : Nat) ≥ 5 ∧
      verifyToken witEnv (some "admin|5.madmin|5".toList) 5 =
        some ⟨some "admin".toList, some 5⟩ := by decide

/-- C1 witness: the inversion theorem applied to a concrete successful
verification. -/
theorem c1_witness :
    ∃ payload sig e,
      splitOnChar '.' "admin|5.madmin|5".toList = [payload, sig] ∧
      utf8Len sig = utf8Len (witEnv.mac payload) ∧
      sig = witEnv.mac payload ∧
      witEnv.dec payload = some ⟨some "admin".toList, some 5⟩ ∧
      (TokenObj.mk (some "admin".toList) (some 5)).exp = some e ∧ e ≠ 0 ∧ 4 ≤ e :=
  c1_verify_success_inversion witEnv "admin|5.madmin|5".toList 4
    ⟨some "admin".toList, some 5⟩ (by decide)

/-!
## Claim C2 — verify ∘ issue roundtrip

`POST /login` (line 141-144) issues `signToken {u, exp: Date.now() + ttl}`.
The hypotheses on the codec environment state facts true of the real
primitives: base64url strings and HMAC base64url digests contain no `'.'`,
and `JSON.parse ∘ b64urlDecode` inverts `b64url ∘ JSON.stringify`.
-/

/-- C2 (corrected): a token issued at `issuedAt` for identity `u` with
positive ttl verifies successfully — returning the same identity — at
every `now ≤ issuedAt + ttl` (including the expiry instant itself), and
fails at every `now > issuedAt + ttl` (strictly more than ttl elapsed). -/
theorem c2_issue_verify_roundtrip (E : TokenCodecEnv) (u : Str)
    (ttl issuedAt now : Nat) (httl : 0 < ttl)
    (hdec : E.dec (E.enc ⟨some u, some (issuedAt + ttl)⟩) =
      some ⟨some u, some (issuedAt + ttl)⟩)
    (hp : '.' ∉ E.enc ⟨some u, some (issuedAt + ttl)⟩)
    (hs : '.' ∉ E.mac (E.enc ⟨some u, some (issuedAt + ttl)⟩)) :
    (now ≤ issuedAt + ttl →
      verifyToken E (some (signToken E ⟨some u, some (issuedAt + ttl)⟩)) now =
        some ⟨some u, some (issuedAt + ttl)⟩) ∧
    (issuedAt + ttl < now →
      verifyToken E (some (signToken E ⟨some u, some (issuedAt + ttl)⟩)) now = none) := by
  have hne : E.enc ⟨some u, some (issuedAt + ttl)⟩ ++
      '.' :: E.mac (E.enc ⟨some u, some (issuedAt + ttl)⟩) ≠ [] := by simp
  have he0 : issuedAt + ttl ≠ 0 := by omega
  constructor
  · intro hnow
    have hlt : ¬ now > issuedAt + ttl := by omega
    simp [signToken, verifyToken, hne, splitOnChar_append_sep hp hs, hdec, he0, hlt]
  · intro hnow
    simp [signToken, verifyToken, hne, splitOnChar_append_sep hp hs, hdec, he0, hnow]

/-- C2 counterexample: `issuedAt = 2`, `ttl = 8`, `now = 10 = issuedAt + ttl`
— exactly `ttl` has elapsed since issuance, yet verification of the issued
token still succeeds, refuting "once ttl has elapsed, verification fails". -/
theorem c2_counterexample :
    verifyToken witEnv (some (signToken witEnv ⟨some "root".toList, some (2 + 8)⟩))
      (2 + 8) = some ⟨some "root".toList, some (2 + 8)⟩ := by decide

/-- C2 witness: the roundtrip theorem at `issuedAt = 3`, `ttl = 4`,
`now = 5 < 7`, with all codec-environment hypotheses discharged on the
concrete environment. -/
theorem c2_witness :
    verifyToken witEnv (some (signToken witEnv ⟨some "admin".toList, some (3 + 4)⟩)) 5 =
      some ⟨some "admin".toList, some (3 + 4)⟩ :=
  (c2_issue_verify_roundtrip witEnv "admin".toList 4 3 5 (by decide) (by decide)
    (by decide) (by decide)).1 (by decide)

/-!
## Claim C3 — tampered tokens are rejected

Tampering with the code segment gives `sig ≠ mac payload`; tampering with
the payload segment gives (under HMAC collision-freeness at the two
payloads, the cryptographic assumption) `mac payload ≠` the original,
still-attached code.  Both reduce to presenting a token whose code segment
differs from the recomputed HMAC of its payload segment, and no
equal-length proviso is needed: rejection is by value.
-/

/-- C3: a token whose authentication-code segment was altered (any
`sig ≠` the original code, equal length allowed), or whose payload segment
was altered (any `payload ≠` the original with a different HMAC), fails
verification at every time.  The no-dot hypotheses hold of the real
base64url segments. -/
theorem c3_tampered_token_rejected (E : TokenCodecEnv) (obj : TokenObj) (now : Nat)
    (p s : Str) (hp : '.' ∉ p) (hs : '.' ∉ s)
    (htamper :
      (p = E.enc obj ∧ s ≠ E.mac (E.enc obj)) ∨
      (p ≠ E.enc obj ∧ E.mac p ≠ E.mac (E.enc obj) ∧ s = E.mac (E.enc obj))) :
    verifyToken E (some (p ++ '.' :: s)) now = none := by
  have hne : p ++ '.' :: s ≠ [] := by simp
  have hsm : s ≠ E.mac p := by
    rcases htamper with ⟨hpe, hse⟩ | ⟨_, hme, hse⟩
    · exact hpe ▸ hse
    · exact fun hc => hme (by rw [← hse, hc])
  simp only [verifyToken, splitOnChar_append_sep hp hs, if_neg hne]
  by_cases hlen : utf8Len s = utf8Len (E.mac p)
  · simp [hlen, hsm]
  · simp [hlen]

/-- C3 witness: concrete payload `"a|9"` with correct code `"ma|9"`;
altering the code to the equal-length `"ma|8"` is rejected. -/
theorem c3_witness :
    verifyToken witEnv (some ("a|9".toList ++ '.' :: "ma|8".toList)) 1 = none :=
  c3_tampered_token_rejected witEnv ⟨some "a".toList, some 9⟩ 1
    "a|9".toList "ma|8".toList (by decide) (by decide) (Or.inl (by decide))

/-!
## Device state store and stream hub state (src/server.js lines 186-199)

A JS `Map` is an insertion-ordered association list: `set` on a present
key replaces the value in place (keeping the key's original position),
`set` on an absent key appends, `keys()` iterates in that order.
-/

/-- JS `Map.prototype.get`. -/
def mapGet {α : Type} (m : List (Str × α)) (k : Str) : Option α :=
  match m with
  | [] => none
  | (k0, v) :: rest => if k0 = k then some v else mapGet rest k

/-- JS `Map.prototype.set`: replace in place, or append a new key. -/
def mapSet {α : Type} (m : List (Str × α)) (k : Str) (v : α) : List (Str × α) :=
  match m with
  | [] => [(k, v)]
  | (k0, v0) :: rest => if k0 = k then (k, v) :: rest else (k0, v0) :: mapSet rest k v

/-- JS `Map.prototype.delete`. -/
def mapDelete {α : Type} (m : List (Str × α)) (k : Str) : List (Str × α) :=
  match m with
  | [] => []
  | (k0, v0) :: rest => if k0 = k then rest else (k0, v0) :: mapDelete rest k

/-- Telemetry record built by the message handler (line 234):
`{ ts: Date.now(), topic, raw, parsed }`.  `J` is the type of decoded
JSON values; a failed `JSON.parse` leaves `parsed = none`. -/
structure TelemetryRecord (J : Type) where
  ts : Nat
  topic : Str
  raw : Str
  parsed : Option J
deriving DecidableEq

/-- An SSE response channel (`res`).  `sid` identifies the connection;
`writeFails` models the external condition that writes to this channel
fail (the source never inspects it: `sseSend` has no error handling). -/
structure Subscriber where
  sid : Nat
  writeFails : Bool
deriving DecidableEq

/-- Data `sseSend` serializes onto a channel: the `"hello"` snapshot event
(line 269) or a `"telemetry"` event (line 239). -/
inductive SsePayload (J : Type) where
  | hello (device : Str) (hasLast : Bool) (last : Option (TelemetryRecord J))
  | telemetry (record : TelemetryRecord J)
deriving DecidableEq

/-- `sseSend` (lines 196-199): one attempted write of one event to one
channel.  The source ignores the outcome of `res.write`, so the model
records the attempt unconditionally, whether or not the channel fails. -/
def sseSend {J : Type} (res : Subscriber) (p : SsePayload J) : Subscriber × SsePayload J :=
  (res, p)

/-- The process-wide mutable state: `latestByDevice` (line 186) and
`sseByDevice` (line 187, each value the set of registered channels). -/
structure BridgeState (J : Type) where
  latestByDevice : List (Str × TelemetryRecord J)
  sseByDevice : List (Str × List Subscriber)
deriving DecidableEq

/-- `getDeviceFromTopic` (lines 189-194). -/
def getDeviceFromTopic (pfx : Str) (topic : Str) : Option Str :=
  let parts := splitOnChar '/' topic
  if parts.length < 3 then none
  else if parts.getD 0 [] ≠ pfx then none
  else some (parts.getD 1 [])

/-- The `mqttClient.on("message")` handler (lines 226-241) as a pure state
transition.  Returns the new state and the list of attempted SSE writes.
The JS `if (!device) return;` discards both `null` (non-matching topic)
and the empty string (falsy). -/
def processMessage {J : Type} (pfx : Str) (parseJson : Str → Option J)
    (st : BridgeState J) (topic payloadBuf : Str) (now : Nat) :
    BridgeState J × List (Subscriber × SsePayload J) :=
  match getDeviceFromTopic pfx topic with
  | none => (st, [])
  | some device =>
    if device = [] then (st, [])
    else
      let raw := payloadBuf
      let parsed := parseJson raw
      let record : TelemetryRecord J := ⟨now, topic, raw, parsed⟩
      let latest := mapSet st.latestByDevice device record
      match mapGet st.sseByDevice device with
      | none => (⟨latest, st.sseByDevice⟩, [])
      | some clients =>
        (⟨latest, st.sseByDevice⟩,
          clients.map (fun res => sseSend res (SsePayload.telemetry record)))

/-- JS `String.prototype.trim` restricted to the common ASCII whitespace
characters (sufficient for every string this development evaluates it on). -/
def jsTrim (s : Str) : Str :=
  let ws : Char → Bool := fun c => c = ' ' || c = '\t' || c = '\n' || c = '\r'
  ((s.dropWhile ws).reverse.dropWhile ws).reverse

/-- The `GET /api/stream/:device` handler (lines 260-281) as a pure
transition: `none` models the `400 {error: "device required"}` response;
otherwise it returns the new state together with the writes made to the
new channel during the call — exactly the one synchronous `"hello"`
snapshot, emitted before the channel is added to the registry. -/
def subscribeStream {J : Type} (st : BridgeState J) (deviceParam : Str)
    (res : Subscriber) :
    Option (BridgeState J × List (Subscriber × SsePayload J)) :=
  let device := jsTrim deviceParam
  if device = [] then none
  else
    let last := mapGet st.latestByDevice device
    let helloWrite := sseSend res (SsePayload.hello device last.isSome last)
    let cur := (mapGet st.sseByDevice device).getD []
    let cur2 := if res ∈ cur then cur else cur ++ [res]
    some (⟨st.latestByDevice, mapSet st.sseByDevice device cur2⟩, [helloWrite])

/-- The `req.on("close")` handler (lines 274-280): remove the channel from
its device's set; drop the device entry entirely if the set became empty. -/
def onClose {J : Type} (st : BridgeState J) (device : Str) (res : Subscriber) :
    BridgeState J :=
  match mapGet st.sseByDevice device with
  | none => st
  | some set0 =>
    let set1 := set0.filter (fun x => x ≠ res)
    if set1 = [] then ⟨st.latestByDevice, mapDelete st.sseByDevice device⟩
    else ⟨st.latestByDevice, mapSet st.sseByDevice device set1⟩

example : getDeviceFromTopic "embarcatech".toList "embarcatech/sensor1/telemetry".toList =
    some "sensor1".toList := by decide

example : getDeviceFromTopic "embarcatech".toList "other/sensor1/telemetry".toList =
    none := by decide

example : getDeviceFromTopic "embarcatech".toList "embarcatech/sensor1".toList =
    none := by decide

example : getDeviceFromTopic "embarcatech".toList "embarcatech//telemetry".toList =
    some [] := by decide

theorem mapGet_mapSet_self {α : Type} (m : List (Str × α)) (k : Str) (v : α) :
    mapGet (mapSet m k v) k = some v := by
  induction m with
  | nil => simp [mapSet, mapGet]
  | cons p rest ih =>
    obtain ⟨k0, v0⟩ := p
    by_cases h : k0 = k <;> simp [mapSet, mapGet, h, ih]

set_option synthInstance.maxHeartbeats 400000 in
theorem mapSet_map_fst {α : Type} (m : List (Str × α)) (k : Str) (v : α) :
    (mapSet m k v).map Prod.fst =
      if k ∈ m.map Prod.fst then m.map Prod.fst else m.map Prod.fst ++ [k] := by
  induction m with
  | nil => simp [mapSet]
  | cons p rest ih =>
    obtain ⟨k0, v0⟩ := p
    by_cases h : k0 = k
    · simp [mapSet, h]
    · have hk : k ≠ k0 := fun hc => h hc.symm
      by_cases hm : k ∈ rest.map Prod.fst <;> simp [mapSet, h, hk, hm, ih]

set_option synthInstance.maxHeartbeats 400000 in
theorem mapSet_nodup_keys {α : Type} (m : List (Str × α)) (k : Str) (v : α)
    (h : (m.map Prod.fst).Nodup) : ((mapSet m k v).map Prod.fst).Nodup := by
  rw [mapSet_map_fst]
  by_cases hm : k ∈ m.map Prod.fst
  · simpa [hm] using h
  · simp only [hm, if_false]
    exact List.Nodup.append h (List.nodup_singleton k)
      (fun a ha hb => hm ((List.mem_singleton.mp hb) ▸ ha))

/-!
## Claim C4 — device state store is last-write-wins with one record per key
-/

set_option synthInstance.maxHeartbeats 400000 in
theorem length_filter_key_le_one {α : Type} (m : List (Str × α)) (d : Str)
    (h : (m.map Prod.fst).Nodup) :
    (m.filter (fun p => p.1 = d)).length ≤ 1 := by
  induction m with
  | nil => simp
  | cons p rest ih =>
    have h' := h
    rw [List.map_cons, List.nodup_cons] at h'
    obtain ⟨hp, hrest⟩ := h'
    by_cases hd : p.1 = d
    · rw [List.filter_cons_of_pos (by simp [hd])]
      have hnil : rest.filter (fun q => decide (q.1 = d)) = [] := by
        rw [List.filter_eq_nil_iff]
        intro q hq
        simp only [decide_eq_true_eq]
        intro hqd
        exact hp (by
          rw [hd, ← hqd]
          exact List.mem_map_of_mem Prod.fst hq)
      simp [hnil]
    · rw [List.filter_cons_of_neg (by simp [hd])]
      exact ih hrest

/-- C4: after `upsert(d, r1); upsert(d, r2)` (two `latestByDevice.set`
calls, line 235), `get(d)` returns `r2`, the key list stays
duplicate-free, and at most one entry for `d` (indeed for any device) is
stored — no history retained. -/
theorem c4_last_write_wins {J : Type} (m : List (Str × TelemetryRecord J)) (d : Str)
    (r1 r2 : TelemetryRecord J) (hnd : (m.map Prod.fst).Nodup) :
    mapGet (mapSet (mapSet m d r1) d r2) d = some r2 ∧
    ((mapSet (mapSet m d r1) d r2).map Prod.fst).Nodup ∧
    ((mapSet (mapSet m d r1) d r2).filter (fun p => p.1 = d)).length ≤ 1 := by
  have hnd2 := mapSet_nodup_keys (mapSet m d r1) d r2 (mapSet_nodup_keys m d r1 hnd)
  exact ⟨mapGet_mapSet_self _ d r2, hnd2, length_filter_key_le_one _ d hnd2⟩

/-- Concrete decoded-JSON type and parser stand-ins for closed evaluations:
`pjNone` is `JSON.parse` on a body that is not valid JSON (always throws). -/
def pjNone : Str → Option Nat := fun _ => none

/-- A concrete stored record for closed evaluations. -/
def recA : TelemetryRecord Nat :=
  ⟨1, "embarcatech/sensor1/telemetry".toList, "21".toList, some 21⟩

/-- C4 witness: the store theorem at a concrete one-entry store. -/
theorem c4_witness :
    mapGet (mapSet (mapSet [("other".toList, recA)] "sensor1".toList recA)
        "sensor1".toList recA) "sensor1".toList = some recA ∧
    ((mapSet (mapSet [("other".toList, recA)] "sensor1".toList recA)
        "sensor1".toList recA).map Prod.fst).Nodup ∧
    ((mapSet (mapSet [("other".toList, recA)] "sensor1".toList recA)
        "sensor1".toList recA).filter (fun p => p.1 = "sensor1".toList)).length ≤ 1 :=
  c4_last_write_wins [("other".toList, recA)] "sensor1".toList recA recA (by decide)

/-!
## Claims C5 and C10 — non-matching and empty-device topics are discarded
-/

/-- C5: a message whose topic has fewer than three `/`-segments, or whose
first segment differs from the configured topic prefix, leaves the whole
bridge state unchanged and produces no write to any subscriber. -/
theorem c5_nonmatching_topic_discarded {J : Type} (pfx : Str) (pj : Str → Option J)
    (st : BridgeState J) (topic body : Str) (ts : Nat)
    (h : (splitOnChar '/' topic).length < 3 ∨ (splitOnChar '/' topic).getD 0 [] ≠ pfx) :
    processMessage pfx pj st topic body ts = (st, []) := by
  have hg : getDeviceFromTopic pfx topic = none := by
    rcases h with h | h
    · simp [getDeviceFromTopic, h]
    · rcases hsp : splitOnChar '/' topic with _ | ⟨p0, ps⟩
      · simp [getDeviceFromTopic, hsp]
      · rw [hsp] at h
        simp only [List.getD_cons_zero] at h
        simp [getDeviceFromTopic, hsp, h]
  simp [processMessage, hg]

/-- A concrete state with one stored record and one live subscriber for
device `"sensor1"`, used by several closed evaluations. -/
def stPre : BridgeState Nat :=
  ⟨[("sensor1".toList, recA)], [("sensor1".toList, [⟨0, false⟩])]⟩

/-- C5 witness: a wrong-prefix topic on a populated state changes nothing
and delivers nothing. -/
theorem c5_witness :
    processMessage "embarcatech".toList pjNone stPre
      "other/sensor1/telemetry".toList "b".toList 9 = (stPre, []) :=
  c5_nonmatching_topic_discarded "embarcatech".toList pjNone stPre
    "other/sensor1/telemetry".toList "b".toList 9 (Or.inr (by decide))

/-- C10: a topic that matches the prefix and has at least three segments
but an *empty* second segment yields `device = ""`; the handler's falsy
test `if (!device) return;` silently discards it, so no empty-string
device can ever be created and nothing is delivered. -/
theorem c10_empty_device_discarded {J : Type} (pfx : Str) (pj : Str → Option J)
    (st : BridgeState J) (topic body : Str) (ts : Nat) (rest : List Str)
    (hsplit : splitOnChar '/' topic = pfx :: [] :: rest) (hr : rest ≠ []) :
    processMessage pfx pj st topic body ts = (st, []) := by
  have h1 : rest.length ≠ 0 := fun hc => hr (List.length_eq_zero.mp hc)
  have hg : getDeviceFromTopic pfx topic = some [] := by
    simp only [getDeviceFromTopic, hsplit]
    rw [if_neg (by simp only [List.length_cons]; omega)]
    simp
  simp [processMessage, hg]

/-- C10 witness: `"embarcatech//telemetry"` on a populated state changes
nothing and delivers nothing. -/
theorem c10_witness :
    processMessage "embarcatech".toList pjNone stPre
      "embarcatech//telemetry".toList "b".toList 9 = (stPre, []) :=
  c10_empty_device_discarded "embarcatech".toList pjNone stPre
    "embarcatech//telemetry".toList "b".toList 9 ["telemetry".toList]
    (by decide) (by decide)

/-!
## Claim C6 — undecodable bodies are stored raw, never dropped
-/

/-- C6: on a matching topic whose body fails to decode
(`JSON.parse` throws, line 232), the handler still builds the record with
`parsed = none` and the body verbatim in `raw`, upserts it into
`latestByDevice`, leaves the subscriber registry untouched, and attempts
delivery to every registered subscriber of the device. -/
theorem c6_unparseable_payload_kept {J : Type} (pfx : Str) (pj : Str → Option J)
    (st : BridgeState J) (topic body : Str) (ts : Nat) (d : Str)
    (hd : getDeviceFromTopic pfx topic = some d) (hne : d ≠ [])
    (hparse : pj body = none) :
    (processMessage pfx pj st topic body ts).1.latestByDevice
        = mapSet st.latestByDevice d ⟨ts, topic, body, none⟩ ∧
    mapGet (processMessage pfx pj st topic body ts).1.latestByDevice d
        = some ⟨ts, topic, body, none⟩ ∧
    (processMessage pfx pj st topic body ts).1.sseByDevice = st.sseByDevice ∧
    (processMessage pfx pj st topic body ts).2
        = ((mapGet st.sseByDevice d).getD []).map
            (fun res => (res, SsePayload.telemetry ⟨ts, topic, body, none⟩)) := by
  rcases hcl : mapGet st.sseByDevice d with _ | clients <;>
    simp [processMessage, sseSend, hd, hne, hparse, hcl, mapGet_mapSet_self]

/-- C6 witness: a matching topic with an unparseable body on the populated
state `stPre`; the record is stored raw and delivered to the registered
subscriber. -/
theorem c6_witness :
    (processMessage "embarcatech".toList pjNone stPre
        "embarcatech/sensor1/telemetry".toList "oops".toList 9).1.latestByDevice
      = mapSet stPre.latestByDevice "sensor1".toList
          ⟨9, "embarcatech/sensor1/telemetry".toList, "oops".toList, none⟩ ∧
    mapGet (processMessage "embarcatech".toList pjNone stPre
        "embarcatech/sensor1/telemetry".toList "oops".toList 9).1.latestByDevice
        "sensor1".toList
      = some ⟨9, "embarcatech/sensor1/telemetry".toList, "oops".toList, none⟩ ∧
    (processMessage "embarcatech".toList pjNone stPre
        "embarcatech/sensor1/telemetry".toList "oops".toList 9).1.sseByDevice
      = stPre.sseByDevice ∧
    (processMessage "embarcatech".toList pjNone stPre
        "embarcatech/sensor1/telemetry".toList "oops".toList 9).2
      = ((mapGet stPre.sseByDevice "sensor1".toList).getD []).map
          (fun res =>
            (res, SsePayload.telemetry
              ⟨9, "embarcatech/sensor1/telemetry".toList, "oops".toList, none⟩)) :=
  c6_unparseable_payload_kept "embarcatech".toList pjNone stPre
    "embarcatech/sensor1/telemetry".toList "oops".toList 9 "sensor1".toList
    (by decide) (by decide) rfl

/-!
## Claim C7 — synchronous snapshot on subscribe
-/

/-- C7: for a non-blank device parameter, `subscribeStream` registers the
new channel and the only write made to it during the call — hence the
first event it ever receives, before any bus message — is the single
`"hello"` snapshot, whose `hasLast`/`last` fields reflect the device-state
store at subscribe time: `hasLast = true` with the stored record when one
exists, `hasLast = false` (explicit no-data indicator) when none does. -/
theorem c7_snapshot_on_subscribe {J : Type} (st : BridgeState J) (deviceParam : Str)
    (res : Subscriber) (h : jsTrim deviceParam ≠ []) :
    subscribeStream st deviceParam res =
      some (⟨st.latestByDevice,
        mapSet st.sseByDevice (jsTrim deviceParam)
          (if res ∈ (mapGet st.sseByDevice (jsTrim deviceParam)).getD []
            then (mapGet st.sseByDevice (jsTrim deviceParam)).getD []
            else (mapGet st.sseByDevice (jsTrim deviceParam)).getD [] ++ [res])⟩,
        [(res, SsePayload.hello (jsTrim deviceParam)
          (mapGet st.latestByDevice (jsTrim deviceParam)).isSome
          (mapGet st.latestByDevice (jsTrim deviceParam)))]) ∧
    res ∈ (mapGet
      (mapSet st.sseByDevice (jsTrim deviceParam)
        (if res ∈ (mapGet st.sseByDevice (jsTrim deviceParam)).getD []
          then (mapGet st.sseByDevice (jsTrim deviceParam)).getD []
          else (mapGet st.sseByDevice (jsTrim deviceParam)).getD [] ++ [res]))
      (jsTrim deviceParam)).getD [] := by
  constructor
  · simp [subscribeStream, sseSend, h]
  · simp only [mapGet_mapSet_self, Option.getD_some]
    by_cases hm : res ∈ (mapGet st.sseByDevice (jsTrim deviceParam)).getD []
    · simp [hm]
    · simp [hm]

/-- C7 witness: subscribing to `"sensor1"` on the populated state `stPre`
yields exactly one synchronous `"hello"` write carrying `hasLast = true`
and the stored record, and registers the channel. -/
theorem c7_witness :
    subscribeStream stPre "sensor1".toList ⟨2, false⟩ =
      some (⟨stPre.latestByDevice,
        [("sensor1".toList, [⟨0, false⟩, ⟨2, false⟩])]⟩,
        [(⟨2, false⟩, SsePayload.hello "sensor1".toList true (some recA))]) ∧
    (⟨2, false⟩ : Subscriber) ∈
      (mapGet [("sensor1".toList, [(⟨0, false⟩ : Subscriber), ⟨2, false⟩])]
        "sensor1".toList).getD [] :=
  c7_snapshot_on_subscribe stPre "sensor1".toList ⟨2, false⟩ (by decide)

/-!
## Claim C8 — what actually happens on a subscriber write failure

`sseSend` (lines 196-199) calls `res.write` with no error handling, and the
delivery loop (lines 237-240) never touches `sseByDevice`; the only code
that deregisters a channel is the `req.on("close")` handler (lines
274-280).  A failed write therefore does *not* remove the subscriber.
-/

/-- A subscriber whose channel writes fail. -/
def subFail : Subscriber := ⟨5, true⟩

/-- A healthy subscriber of the same device. -/
def subOk : Subscriber := ⟨6, false⟩

/-- A state with both subscribers registered for device `"dev1"`. -/
def stC8 : BridgeState Nat := ⟨[], [("dev1".toList, [subFail, subOk])]⟩

/-- C8 counterexample: a message is delivered while `subFail`'s channel
fails; the claim says `subFail` is immediately removed from the registry,
but after processing, the registry is unchanged and still contains
`subFail` — the write was attempted (and failed) with no deregistration. -/
theorem c8_counterexample :
    subFail.writeFails = true ∧
    (subFail, SsePayload.telemetry
        (⟨3, "embarcatech/dev1/telemetry".toList, "x".toList, none⟩ : TelemetryRecord Nat))
      ∈ (processMessage "embarcatech".toList pjNone stC8
          "embarcatech/dev1/telemetry".toList "x".toList 3).2 ∧
    subFail ∈ (mapGet (processMessage "embarcatech".toList pjNone stC8
        "embarcatech/dev1/telemetry".toList "x".toList 3).1.sseByDevice
        "dev1".toList).getD [] ∧
    (processMessage "embarcatech".toList pjNone stC8
        "embarcatech/dev1/telemetry".toList "x".toList 3).1.sseByDevice
      = stC8.sseByDevice := by decide

/-- C8 (corrected): delivery never modifies the subscriber registry — a
write failure causes no removal — and every registered subscriber of the
device, a failing one included, receives exactly one attempted write per
message (no retry); in particular delivery to every other subscriber
still happens. -/
theorem c8_no_removal_on_write_failure {J : Type} (pfx : Str) (pj : Str → Option J)
    (st : BridgeState J) (topic body : Str) (ts : Nat) (d : Str) (cs : List Subscriber)
    (hd : getDeviceFromTopic pfx topic = some d) (hne : d ≠ [])
    (hcs : mapGet st.sseByDevice d = some cs) :
    (processMessage pfx pj st topic body ts).1.sseByDevice = st.sseByDevice ∧
    (processMessage pfx pj st topic body ts).2
      = cs.map (fun res => (res, SsePayload.telemetry ⟨ts, topic, body, pj body⟩)) := by
  constructor <;> simp [processMessage, sseSend, hd, hne, hcs]

/-- C8 witness: the corrected theorem on the two-subscriber state; both
`subFail` and `subOk` get exactly one attempted write and the registry is
untouched. -/
theorem c8_witness :
    (processMessage "embarcatech".toList pjNone stC8
        "embarcatech/dev1/telemetry".toList "y".toList 4).1.sseByDevice
      = stC8.sseByDevice ∧
    (processMessage "embarcatech".toList pjNone stC8
        "embarcatech/dev1/telemetry".toList "y".toList 4).2
      = [subFail, subOk].map (fun res =>
          (res, SsePayload.telemetry ⟨4, "embarcatech/dev1/telemetry".toList,
            "y".toList, none⟩)) :=
  c8_no_removal_on_write_failure "embarcatech".toList pjNone stC8
    "embarcatech/dev1/telemetry".toList "y".toList 4 "dev1".toList [subFail, subOk]
    (by decide) (by decide) (by decide)

/-!
## Claim C9 — device listings

`GET /api/devices` (line 249) returns `Array.from(latestByDevice.keys()).sort()`;
`GET /api/state` (line 256) returns `Array.from(latestByDevice.keys())`
*without* sorting — the bridge-status device list is in `Map` insertion
order.  JS default `Array.prototype.sort` compares strings by code unit;
`strLe` is that comparison, `sortStr` a sort under it.
-/

/-- JS default string comparison (lexicographic by code unit), as used by
`Array.prototype.sort` on strings. -/
def strLe : Str → Str → Bool
  | [], _ => true
  | _ :: _, [] => false
  | a :: as, b :: bs => if a < b then true else if a = b then strLe as bs else false

theorem strLe_total : ∀ a b : Str, strLe a b = true ∨ strLe b a = true
  | [], _ => Or.inl rfl
  | _ :: _, [] => Or.inr rfl
  | a :: as, b :: bs => by
    rcases lt_trichotomy a b with h | h | h
    · left
      simp [strLe, h]
    · subst h
      rcases strLe_total as bs with ih | ih
      · left
        simp [strLe, ih]
      · right
        simp [strLe, ih]
    · right
      simp [strLe, h]

theorem strLe_trans : ∀ a b c : Str,
    strLe a b = true → strLe b c = true → strLe a c = true
  | [], _, _, _, _ => rfl
  | _ :: _, [], _, hab, _ => by simp [strLe] at hab
  | _ :: _, _ :: _, [], _, hbc => by simp [strLe] at hbc
  | a :: as, b :: bs, c :: cs, hab, hbc => by
    have hab' : a < b ∨ (a = b ∧ strLe as bs = true) := by
      by_cases h1 : a < b
      · exact Or.inl h1
      · by_cases h2 : a = b
        · rw [strLe, if_neg h1, if_pos h2] at hab
          exact Or.inr ⟨h2, hab⟩
        · rw [strLe, if_neg h1, if_neg h2] at hab
          exact absurd hab (by simp)
    have hbc' : b < c ∨ (b = c ∧ strLe bs cs = true) := by
      by_cases h1 : b < c
      · exact Or.inl h1
      · by_cases h2 : b = c
        · rw [strLe, if_neg h1, if_pos h2] at hbc
          exact Or.inr ⟨h2, hbc⟩
        · rw [strLe, if_neg h1, if_neg h2] at hbc
          exact absurd hbc (by simp)
    rcases hab' with h1 | ⟨rfl, h1⟩
    · rcases hbc' with h2 | ⟨rfl, h2⟩
      · simp [strLe, lt_trans h1 h2]
      · simp [strLe, h1]
    · rcases hbc' with h2 | ⟨rfl, h2⟩
      · simp [strLe, h2]
      · simp [strLe, strLe_trans as bs cs h1 h2]

/-- Insert into a `strLe`-sorted list, keeping it sorted. -/
def insertStr (x : Str) : List Str → List Str
  | [] => [x]
  | y :: ys => if strLe x y then x :: y :: ys else y :: insertStr x ys

/-- Sort a list of strings under `strLe`; models JS
`Array.prototype.sort()` on an array of strings (up to the stable
reordering, which a sorted permutation determines uniquely on
duplicate-free inputs). -/
def sortStr : List Str → List Str
  | [] => []
  | x :: xs => insertStr x (sortStr xs)

theorem insertStr_perm (x : Str) : ∀ l : List Str, (insertStr x l).Perm (x :: l)
  | [] => List.Perm.refl _
  | y :: ys => by
    by_cases h : strLe x y
    · rw [insertStr, if_pos h]
    · rw [insertStr, if_neg h]
      exact ((insertStr_perm x ys).cons y).trans (List.Perm.swap x y ys)

theorem sortStr_perm : ∀ l : List Str, (sortStr l).Perm l
  | [] => List.Perm.refl _
  | x :: xs => (insertStr_perm x (sortStr xs)).trans ((sortStr_perm xs).cons x)

theorem insertStr_pairwise (x : Str) :
    ∀ l : List Str, l.Pairwise (fun a b => strLe a b = true) →
      (insertStr x l).Pairwise (fun a b => strLe a b = true)
  | [], _ => by simp [insertStr]
  | y :: ys, h => by
    rcases List.pairwise_cons.mp h with ⟨hy, hys⟩
    by_cases hxy : strLe x y
    · rw [insertStr, if_pos hxy]
      refine List.pairwise_cons.mpr ⟨?_, h⟩
      intro z hz
      rcases List.mem_cons.mp hz with rfl | hz
      · exact hxy
      · exact strLe_trans x y z hxy (hy z hz)
    · rw [insertStr, if_neg hxy]
      refine List.pairwise_cons.mpr ⟨?_, insertStr_pairwise x ys hys⟩
      intro z hz
      rcases List.mem_cons.mp ((insertStr_perm x ys).mem_iff.mp hz) with rfl | hz
      · rcases strLe_total z y with hc | hc
        · exact absurd hc hxy
        · exact hc
      · exact hy z hz

theorem sortStr_pairwise :
    ∀ l : List Str, (sortStr l).Pairwise (fun a b => strLe a b = true)
  | [] => List.Pairwise.nil
  | x :: xs => insertStr_pairwise x (sortStr xs) (sortStr_pairwise xs)

/-- `GET /api/devices` (lines 248-250): the sorted key list. -/
def apiDevices {J : Type} (st : BridgeState J) : List Str :=
  sortStr (st.latestByDevice.map Prod.fst)

/-- The `devices` field of `GET /api/state` (lines 252-258): the key list
in `Map` insertion order, not sorted. -/
def apiStateDevices {J : Type} (st : BridgeState J) : List Str :=
  st.latestByDevice.map Prod.fst

/-- The state after processing telemetry for device `"b"` and then
device `"a"`, in that order. -/
def stC9 : BridgeState Nat :=
  (processMessage "embarcatech".toList pjNone
    (processMessage "embarcatech".toList pjNone ⟨[], []⟩
      "embarcatech/b/telemetry".toList "1".toList 1).1
    "embarcatech/a/telemetry".toList "2".toList 2).1

/-- C9 counterexample: after messages for `"b"` then `"a"`, the
bridge-status device list is `["b", "a"]` — insertion order, not the
lexicographically sorted order the claim asserts — while `/api/devices`
does sort. -/
theorem c9_counterexample :
    apiStateDevices stC9 = ["b".toList, "a".toList] ∧
    apiDevices stC9 = ["a".toList, "b".toList] ∧
    ¬ (apiStateDevices stC9).Pairwise (fun a b => strLe a b = true) ∧
    apiStateDevices stC9 ≠ apiDevices stC9 := by decide

/-- C9 (corrected): the device-listing endpoint returns exactly the keys
of the device state store in sorted order, while the bridge-status
response returns exactly the same key set in `Map` insertion order
(unsorted).  Both contain exactly the devices known to the store. -/
theorem c9_device_listings {J : Type} (st : BridgeState J) :
    (apiDevices st).Pairwise (fun a b => strLe a b = true) ∧
    (apiDevices st).Perm (st.latestByDevice.map Prod.fst) ∧
    apiStateDevices st = st.latestByDevice.map Prod.fst :=
  ⟨sortStr_pairwise _, sortStr_perm _, rfl⟩
